import Mathlib

/-!
Verification of the SecureChat cryptographic core (`src/core/src/crypto.rs`,
`src/core/src/storage.rs`) against its natural-language specification.

The embedding works at two levels of abstraction, matching how the Rust code
handles data:

* a symbolic level, where byte strings produced by cryptographic primitives
  (CSPRNG draws, Argon2id outputs, X25519 shared secrets, HKDF expansions,
  Ed25519 public keys) are terms of an inductive type `SBytes`, and AEAD
  ciphertexts are records of the sealing key, nonce and plaintext.  AEAD
  decryption succeeds exactly when key and nonce match — the standard ideal
  (Dolev-Yao style) interpretation under which statements such as
  "unsealing with a wrong password fails" are meaningful at all.  This level
  is faithful to `crypto.rs`, which treats every ciphertext as an opaque
  `Vec<u8>` and never slices it.

* a concrete byte level (`List Nat`), used where the Rust code manipulates
  raw byte layouts: the `[salt:16][nonce:12][ciphertext]` blob format of
  `storage.rs` and length checks against the 16-byte AEAD tag.
-/

namespace SecureChat

/-- Byte sequence of a string literal (each `Char` as its code point; all
labels used by the program are ASCII). -/
def strBytes (s : String) : List Nat :=
  s.data.map Char.toNat

/-- Symbolic byte strings: outputs of the cryptographic primitives used by
`crypto.rs`.  X25519 secret keys are identified by the id of the CSPRNG draw
that generated them (`Nat`); `dhShared a b` is the X25519 shared secret of
secrets `a` and `b`, kept in normalized order so that the Diffie-Hellman
commutativity `DH(skA, pkB) = DH(skB, pkA)` holds by construction. -/
inductive SBytes where
  /-- A literal byte string. -/
  | lit : List Nat → SBytes
  /-- CSPRNG output: draw id and byte length. -/
  | rand : Nat → Nat → SBytes
  /-- 32-byte Argon2id hash of a password with a salt. -/
  | argon2 : List Nat → SBytes → SBytes
  /-- 32-byte Ed25519 verifying key of a signing key. -/
  | edpub : SBytes → SBytes
  /-- 32-byte X25519 shared secret of the two secrets (normalized order). -/
  | dhShared : Nat → Nat → SBytes
  /-- HKDF-SHA-256 expand with no explicit salt: ikm, info, output length. -/
  | hkdfNoSalt : SBytes → List Nat → Nat → SBytes
  /-- HKDF-SHA-256 expand with an explicit salt: salt, ikm, info, length. -/
  | hkdfSalted : SBytes → SBytes → List Nat → Nat → SBytes
  /-- Concatenation of two byte strings. -/
  | append : SBytes → SBytes → SBytes
  deriving DecidableEq

/-- Byte length of a symbolic byte string. -/
def SBytes.len : SBytes → Nat
  | .lit l => l.length
  | .rand _ n => n
  | .argon2 _ _ => 32
  | .edpub _ => 32
  | .dhShared _ _ => 32
  | .hkdfNoSalt _ _ n => n
  | .hkdfSalted _ _ _ n => n
  | .append a b => a.len + b.len

/-- An X25519 public key, identified by the draw id of its secret key.
`crypto.rs` only ever feeds honestly generated public keys
(`X25519PublicKey::from(&secret)`) into the operations modelled here. -/
structure XPub where
  owner : Nat
  deriving DecidableEq

/-- The X25519 public key of the secret with draw id `sk`. -/
def xpubOf (sk : Nat) : XPub := ⟨sk⟩

/-- X25519 Diffie-Hellman: `StaticSecret::diffie_hellman(&public)`.  The
normalized order of the two secret ids makes the exchange commutative, as
for the real X25519 function. -/
def dh (sk : Nat) (pk : XPub) : SBytes :=
  SBytes.dhShared (min sk pk.owner) (max sk pk.owner)

/-- An AEAD (AES-256-GCM) ciphertext at the symbolic level: the sealing key,
the nonce and the sealed plaintext. -/
structure Sealed where
  key : SBytes
  nonce : SBytes
  plaintext : SBytes
  deriving DecidableEq

/-- AEAD seal: `Aes256Gcm::encrypt`. -/
def aeadEncrypt (key nonce plaintext : SBytes) : Sealed :=
  ⟨key, nonce, plaintext⟩

/-- AEAD open: `Aes256Gcm::decrypt`.  Succeeds exactly when the key and
nonce match the ones used to seal (ideal-cipher interpretation of GCM tag
authentication). -/
def aeadDecrypt (key nonce : SBytes) (ct : Sealed) : Option SBytes :=
  if ct.key = key ∧ ct.nonce = nonce then some ct.plaintext else none

/-- Outcome of running a fallible Rust function: `Ok`, `Err`, or a panic
(e.g. `copy_from_slice` with mismatched lengths). -/
inductive RunResult (α : Type) where
  | ok (value : α)
  | err
  | panic
  deriving DecidableEq

/-- The `Hkdf::<Sha256>::new(salt, ikm)` state. -/
structure Hkdf where
  salt : Option SBytes
  ikm : SBytes

/-- Mirror of `Hkdf::<Sha256>::new`. -/
def Hkdf.new (salt : Option SBytes) (ikm : SBytes) : Hkdf :=
  ⟨salt, ikm⟩

/-- Mirror of `Hkdf::expand(info, out)` producing `len` output bytes.  With
the output lengths used by the program (always 32) the Rust call cannot
fail, so the model is total. -/
def Hkdf.expand (hk : Hkdf) (info : List Nat) (len : Nat) : SBytes :=
  match hk.salt with
  | none => SBytes.hkdfNoSalt hk.ikm info len
  | some s => SBytes.hkdfSalted s hk.ikm info len

/-- Mirror of `MasterKey` (`crypto.rs` lines 17-23): the AEAD-sealed master key
together with its Argon2id salt and AEAD nonce. -/
structure MasterKey where
  encrypted_key : Sealed
  salt : SBytes
  nonce : SBytes
  deriving DecidableEq

/-- Mirror of `MasterKey::from_password` (`crypto.rs` lines 78-108): draw a 32-byte
salt, a 12-byte nonce and a 32-byte master key from the CSPRNG (in that
order; `ctr` is the id of the first draw), derive the password key with
Argon2id, and seal the master key under it.  Returns the envelope and the
clear master key, like the Rust function. -/
def MasterKey.from_password (password : List Nat) (ctr : Nat) : MasterKey × SBytes :=
  let salt := SBytes.rand ctr 32
  let nonce := SBytes.rand (ctr + 1) 12
  let derived_key := SBytes.argon2 password salt
  let master_key := SBytes.rand (ctr + 2) 32
  let encrypted_key := aeadEncrypt derived_key nonce master_key
  (⟨encrypted_key, salt, nonce⟩, master_key)

/-- Mirror of `MasterKey::unlock` (`crypto.rs` lines 111-135): re-derive the password
key with Argon2id over the stored salt, AEAD-open the sealed master key
(`Err` on authentication failure), then `copy_from_slice` the plaintext into
a 32-byte array — which panics unless the plaintext is exactly 32 bytes. -/
def MasterKey.unlock (self : MasterKey) (password : List Nat) : RunResult SBytes :=
  let derived_key := SBytes.argon2 password self.salt
  match aeadDecrypt derived_key self.nonce self.encrypted_key with
  | none => RunResult.err
  | some decrypted =>
      if decrypted.len = 32 then RunResult.ok decrypted else RunResult.panic

/-- Mirror of `IdentityKeyPair` (`crypto.rs` lines 26-30): a long-term Ed25519
keypair.  The `secret_key` field is private in Rust; every value built by
the code satisfies `public_key = edpub secret_key`. -/
structure IdentityKeyPair where
  public_key : SBytes
  secret_key : SBytes
  deriving DecidableEq

/-- Mirror of `EncryptedIdentityKeys` (`crypto.rs` lines 33-38): the stored public
key, the AEAD-sealed signing key, and the nonce. -/
structure EncryptedIdentityKeys where
  public_key : SBytes
  encrypted_secret : Sealed
  nonce : SBytes
  deriving DecidableEq

/-- Mirror of `IdentityKeyPair::generate` (`crypto.rs` lines 152-160):
`SigningKey::generate(rng)` (one 32-byte CSPRNG draw, id `ctr`) and its
verifying key. -/
def IdentityKeyPair.generate (ctr : Nat) : IdentityKeyPair :=
  let secret_key := SBytes.rand ctr 32
  ⟨SBytes.edpub secret_key, secret_key⟩

/-- Mirror of `IdentityKeyPair::encrypt` (`crypto.rs` lines 174-188): draw a fresh
12-byte nonce (id `ctr`) and seal the signing key under the master key;
store the public key in clear alongside. -/
def IdentityKeyPair.encrypt (self : IdentityKeyPair) (master_key : SBytes)
    (ctr : Nat) : EncryptedIdentityKeys :=
  let nonce := SBytes.rand ctr 12
  ⟨self.public_key, aeadEncrypt master_key nonce self.secret_key, nonce⟩

/-- Mirror of `IdentityKeyPair::decrypt` (`crypto.rs` lines 191-207): AEAD-open the
sealed secret under the master key (`Err` on authentication failure),
`copy_from_slice` it into a 32-byte array (panics unless the plaintext is
exactly 32 bytes), rebuild the signing key and recompute the public key
from it. -/
def IdentityKeyPair.decrypt (encrypted : EncryptedIdentityKeys)
    (master_key : SBytes) : RunResult IdentityKeyPair :=
  match aeadDecrypt master_key encrypted.nonce encrypted.encrypted_secret with
  | none => RunResult.err
  | some decrypted =>
      if decrypted.len = 32 then
        RunResult.ok ⟨SBytes.edpub decrypted, decrypted⟩
      else RunResult.panic

/-- Mirror of `MessageKeyPair` (`crypto.rs` lines 41-45): an X25519 keypair for
session establishment.  The secret is identified by its CSPRNG draw id. -/
structure MessageKeyPair where
  public_key : XPub
  secret_key : Nat
  deriving DecidableEq

/-- Mirror of `MessageKeyPair::generate` (`crypto.rs` lines 218-226): a fresh X25519
secret (draw id `ctr`) and its public key. -/
def MessageKeyPair.generate (ctr : Nat) : MessageKeyPair :=
  ⟨xpubOf ctr, ctr⟩

/-- Mirror of `EncryptedMessage` (`crypto.rs` lines 57-63): the AEAD ciphertext, its
nonce, the sender's session public key and the ephemeral public key. -/
structure EncryptedMessage where
  ciphertext : Sealed
  nonce : SBytes
  sender_pubkey : XPub
  ephemeral_pubkey : XPub
  deriving DecidableEq

/-- The HKDF `info` label `"SecureChat-v1"` used for session establishment. -/
def infoSecureChatV1 : List Nat := strBytes ("SecureChat-v1")

/-- Mirror of `MessageKeyPair::encrypt_message` (`crypto.rs` lines 229-264): generate
an ephemeral X25519 pair (draw id `ctr`), compute
`dh1 = DH(self.secret, recipient)` then `dh2 = DH(ephemeral, recipient)`,
concatenate them as the HKDF input keying material, expand 32 bytes with
info `"SecureChat-v1"` and no salt, and AEAD-seal the message under the
result with a fresh 12-byte nonce (draw id `ctr + 1`). -/
def MessageKeyPair.encrypt_message (self : MessageKeyPair) (recipient_pubkey : XPub)
    (message : List Nat) (ctr : Nat) : EncryptedMessage :=
  let ephemeral_secret := ctr
  let ephemeral_pubkey := xpubOf ctr
  let dh1 := dh self.secret_key recipient_pubkey
  let dh2 := dh ephemeral_secret recipient_pubkey
  let dh_bytes := SBytes.append dh1 dh2
  let shared_secret := (Hkdf.new none dh_bytes).expand infoSecureChatV1 32
  let nonce := SBytes.rand (ctr + 1) 12
  { ciphertext := aeadEncrypt shared_secret nonce (SBytes.lit message)
    nonce := nonce
    sender_pubkey := self.public_key
    ephemeral_pubkey := ephemeral_pubkey }

/-- The shared secret computed by `MessageKeyPair::decrypt_message`
(`crypto.rs` lines 275-286): `dh1 = DH(self.secret, sender_pubkey)`,
`dh2 = DH(self.secret, ephemeral_pubkey)`, HKDF-expanded with info
`"SecureChat-v1"` and no salt. -/
def MessageKeyPair.recvSharedSecret (self : MessageKeyPair)
    (encrypted : EncryptedMessage) : SBytes :=
  let dh1 := dh self.secret_key encrypted.sender_pubkey
  let dh2 := dh self.secret_key encrypted.ephemeral_pubkey
  (Hkdf.new none (SBytes.append dh1 dh2)).expand infoSecureChatV1 32

/-- Mirror of `MessageKeyPair::decrypt_message` (`crypto.rs` lines 267-295): derive
the shared secret from the envelope's public keys and AEAD-open the
ciphertext (`none` models the `Err` on authentication failure). -/
def MessageKeyPair.decrypt_message (self : MessageKeyPair)
    (encrypted : EncryptedMessage) : Option SBytes :=
  aeadDecrypt (self.recvSharedSecret encrypted) encrypted.nonce encrypted.ciphertext

/-- Mirror of `DoubleRatchet` (`crypto.rs` lines 66-74): root key, optional sending
and receiving chain keys, the two message counters, and the skipped
message-key buffer. -/
structure DoubleRatchet where
  root_key : SBytes
  sending_chain_key : Option SBytes
  receiving_chain_key : Option SBytes
  sending_message_number : Nat
  receiving_message_number : Nat
  skipped_message_keys : List (Nat × SBytes)
  deriving DecidableEq

/-- Mirror of `DoubleRatchet::initialize` (`crypto.rs` lines 300-309): the root key is
the X3DH shared secret, chain keys are absent, both counters are 0 and the
skipped-key buffer is empty. -/
def initRatchet (shared_secret : SBytes) : DoubleRatchet :=
  { root_key := shared_secret
    sending_chain_key := none
    receiving_chain_key := none
    sending_message_number := 0
    receiving_message_number := 0
    skipped_message_keys := [] }

/-- The HKDF label `"ratchet-root"`. -/
def infoRatchetRoot : List Nat := strBytes ("ratchet-root")

/-- The HKDF label `"ratchet-send"`. -/
def infoRatchetSend : List Nat := strBytes ("ratchet-send")

/-- The HKDF label `"ratchet-recv"`. -/
def infoRatchetRecv : List Nat := strBytes ("ratchet-recv")

/-- Mirror of `DoubleRatchet::ratchet` (`crypto.rs` lines 312-333): build
`Hkdf::new(None, root_key)` once, expand 32 bytes under each of the labels
`"ratchet-root"`, `"ratchet-send"`, `"ratchet-recv"`, install them as the
new root key and the two chain keys, and reset both counters to 0.  The
`new_remote_pubkey` argument is received but never read.  The Rust `Result`
can only be `Err` if a 32-byte HKDF expansion failed, which cannot happen,
so the model is total. -/
def DoubleRatchet.ratchet (self : DoubleRatchet) (new_remote_pubkey : List Nat) :
    DoubleRatchet :=
  let hk := Hkdf.new none self.root_key
  let new_root := hk.expand infoRatchetRoot 32
  let sending := hk.expand infoRatchetSend 32
  let receiving := hk.expand infoRatchetRecv 32
  { self with
    root_key := new_root
    sending_chain_key := some sending
    receiving_chain_key := some receiving
    sending_message_number := 0
    receiving_message_number := 0 }

/-! ### Send/receive operations and the skipped-key buffer

`crypto.rs` declares the ratchet state (including `skipped_message_keys`)
but implements no send or receive operation and no buffer insertion; the
definitions below model those operations from the specification (§4.4
"Sending", "Receiving with counter m", "Bounded skipped-key buffer"). -/

/-- Big-endian 4-byte encoding of a counter, used in the per-message HKDF
info label `"mk" ‖ encode(n)`. -/
def encU32 (n : Nat) : List Nat :=
  [n / 2 ^ 24 % 256, n / 2 ^ 16 % 256, n / 2 ^ 8 % 256, n % 256]

/-- Modelled from the spec: the fixed maximum size of the skipped-key
buffer (§4.4 recommends 1,000 entries); absent from `src`. -/
def maxSkippedKeys : Nat := 1000

/-- Modelled from the spec: inserting one skipped message key; a buffer at
the cap evicts its oldest (front) entry (§4.4 "Exceeding the cap evicts the
oldest skipped keys"); absent from `src`. -/
def insertSkipped (buf : List (Nat × SBytes)) (entry : Nat × SBytes) :
    List (Nat × SBytes) :=
  (if maxSkippedKeys ≤ buf.length then buf.drop 1 else buf) ++ [entry]

/-- Modelled from the spec: the message key for counter `n`,
`MK_n = HKDF(CK, info = "mk" ‖ encode(n), 32)` (§4.4); absent from `src`. -/
def messageKey (ck : SBytes) (n : Nat) : SBytes :=
  (Hkdf.new none ck).expand (strBytes ("mk") ++ encU32 n) 32

/-- Modelled from the spec: the next chain key,
`CK' = HKDF(CK, info = "ck", 32)` (§4.4); absent from `src`. -/
def chainNext (ck : SBytes) : SBytes :=
  (Hkdf.new none ck).expand (strBytes ("ck")) 32

/-- Modelled from the spec: advance a receiving chain by `gap` steps from
counter `n`, buffering each intermediate message key, and return the
message key for `n + gap`, the chain key after it, and the updated buffer
(§4.4 "advance CK_r forward, buffering all intermediate MKs"); absent from
`src`. -/
def advanceChain : SBytes → Nat → Nat → List (Nat × SBytes) →
    SBytes × SBytes × List (Nat × SBytes)
  | ck, n, 0, buf => (messageKey ck n, chainNext ck, buf)
  | ck, n, gap + 1, buf =>
      advanceChain (chainNext ck) (n + 1) gap (insertSkipped buf (n, messageKey ck n))

/-- Failure modes of the modelled receive step (spec §4.4 and §7). -/
inductive RatchetError where
  | replayOrStale
  | stateMissing
  deriving DecidableEq

/-- First buffered message key for counter `m`, if any. -/
def lookupSkipped (buf : List (Nat × SBytes)) (m : Nat) : Option SBytes :=
  match buf.find? (fun e => e.1 == m) with
  | some e => some e.2
  | none => none

/-- Remove the first buffered entry for counter `m`. -/
def removeSkipped (buf : List (Nat × SBytes)) (m : Nat) : List (Nat × SBytes) :=
  buf.eraseP (fun e => e.1 == m)

/-- Modelled from the spec: the symmetric sending step — derive the message
key from `(CK_s, n_s)`, advance `CK_s`, increment `n_s` (§4.4 "Sending");
absent from `src`.  `none` when no sending chain key is installed. -/
def sendStep (r : DoubleRatchet) : Option (SBytes × DoubleRatchet) :=
  match r.sending_chain_key with
  | none => none
  | some ck =>
      some (messageKey ck r.sending_message_number,
        { r with
          sending_chain_key := some (chainNext ck)
          sending_message_number := r.sending_message_number + 1 })

/-- Modelled from the spec: the symmetric receiving step for counter `m` —
use a buffered skipped key if one exists, reject counters below `n_r` as
`ReplayOrStale`, otherwise advance the receiving chain to `m` (buffering
intermediate keys) and set `n_r` to `m + 1` (§4.4 "Receiving with counter
m"); absent from `src`. -/
def recvStep (r : DoubleRatchet) (m : Nat) :
    Except RatchetError (SBytes × DoubleRatchet) :=
  match lookupSkipped r.skipped_message_keys m with
  | some mk =>
      Except.ok (mk, { r with
        skipped_message_keys := removeSkipped r.skipped_message_keys m })
  | none =>
      if m < r.receiving_message_number then Except.error RatchetError.replayOrStale
      else
        match r.receiving_chain_key with
        | none => Except.error RatchetError.stateMissing
        | some ck =>
            let out := advanceChain ck r.receiving_message_number
              (m - r.receiving_message_number) r.skipped_message_keys
            Except.ok (out.1, { r with
              receiving_chain_key := some out.2.1
              skipped_message_keys := out.2.2
              receiving_message_number := m + 1 })

/-- One operation on a ratchet state: the DH ratchet step implemented in
`crypto.rs`, or a (spec-modelled) send or receive. -/
inductive RatchetOp where
  | ratchetStep (pk : List Nat)
  | send
  | recv (m : Nat)
  deriving DecidableEq

/-- Apply one operation to a ratchet state; a failed send or receive leaves
the state unchanged (spec §4.4: on failure "the ratchet state is not
advanced"). -/
def applyOp (r : DoubleRatchet) (op : RatchetOp) : DoubleRatchet :=
  match op with
  | RatchetOp.ratchetStep pk => r.ratchet pk
  | RatchetOp.send =>
      match sendStep r with
      | some out => out.2
      | none => r
  | RatchetOp.recv m =>
      match recvStep r m with
      | Except.ok out => out.2
      | Except.error _ => r

/-- Ratchet states reachable from initialization by any sequence of
operations. -/
inductive Reachable : DoubleRatchet → Prop where
  | init (shared_secret : SBytes) : Reachable (initRatchet shared_secret)
  | step (r : DoubleRatchet) (op : RatchetOp) :
      Reachable r → Reachable (applyOp r op)

/-! ### Byte-level layer

`storage.rs` manipulates raw byte layouts (`[salt:16][nonce:12][ciphertext]`),
and the AEAD tag-size boundary of claim C9 is a property of byte lengths, so
this layer models data as `List Nat`.  The AEAD tag here is a 16-byte
checksum: only its length and the library's rejection of ciphertexts shorter
than the tag matter for the theorems below, never tag collisions. -/

/-- The AES-256-GCM authentication tag size in bytes. -/
def tagSize : Nat := 16

/-- A 16-byte tag over key fingerprint, nonce and body (stands in for the
GCM tag; only its 16-byte length is relied upon). -/
def aeadTagBytes (keyFp : Nat) (nonce body : List Nat) : List Nat :=
  List.replicate tagSize ((keyFp + nonce.sum + body.sum) % 256)

/-- Byte-level AEAD open, as exposed by the `aes_gcm` crate: a ciphertext
shorter than the 16-byte tag cannot be split and is an error; otherwise the
trailing tag is checked against the body. -/
def aeadOpenBytes (keyFp : Nat) (nonce ct : List Nat) : Option (List Nat) :=
  if ct.length < tagSize then none
  else
    let body := ct.take (ct.length - tagSize)
    let tag := ct.drop (ct.length - tagSize)
    if tag = aeadTagBytes keyFp nonce body then some body else none

/-- Numeric fingerprint of a symbolic byte string, used only to feed the
byte-level AEAD stand-in a key-dependent value. -/
def SBytes.fp : SBytes → Nat
  | .lit l => 2 + l.sum
  | .rand i n => 3 + i + n
  | .argon2 p s => 5 + p.sum + s.fp
  | .edpub s => 7 + s.fp
  | .dhShared a b => 11 + a + b
  | .hkdfNoSalt ikm info n => 13 + ikm.fp + info.sum + n
  | .hkdfSalted s ikm info n => 17 + s.fp + ikm.fp + info.sum + n
  | .append a b => 19 + a.fp + b.fp

/-- Errors surfaced by the byte-level decryption operations. -/
inductive StorageError where
  /-- Error from `storage.rs`: "Invalid encrypted data" — blob too short to slice. -/
  | invalidData
  /-- Authentication failure reported by the AEAD layer. -/
  | decryptionFailed
  deriving DecidableEq

/-- The `SecureStorage` state: its clear 32-byte master key. -/
structure SecureStorage where
  master_key : List Nat
  deriving DecidableEq

/-- Mirror of `SecureStorage::decrypt` (`storage.rs` lines 150-171): reject blobs
shorter than 28 bytes (`salt:16 + nonce:12`), slice off the unused 16-byte
salt and the 12-byte nonce, and AEAD-open the remainder under the master
key. -/
def SecureStorage.decrypt (self : SecureStorage) (data : List Nat) :
    Except StorageError (List Nat) :=
  if data.length < 28 then Except.error StorageError.invalidData
  else
    let nonce := (data.drop 16).take 12
    let ciphertext := data.drop 28
    match aeadOpenBytes self.master_key.sum nonce ciphertext with
    | some plaintext => Except.ok plaintext
    | none => Except.error StorageError.decryptionFailed

/-- Control flow of a decryption operation up to the AEAD layer: either an
early rejection before any AEAD call, or an AEAD attempt on the given nonce
and ciphertext. -/
inductive DecryptFlow where
  | earlyReject
  | aeadAttempt (nonce ciphertext : List Nat)
  deriving DecidableEq

/-- The pre-AEAD control flow of `SecureStorage::decrypt`: only blobs
shorter than 28 bytes are rejected before the AEAD call. -/
def SecureStorage.decryptFlow (data : List Nat) : DecryptFlow :=
  if data.length < 28 then DecryptFlow.earlyReject
  else DecryptFlow.aeadAttempt ((data.drop 16).take 12) (data.drop 28)

/-- An `EncryptedMessage` as it arrives off the wire, with its ciphertext
as raw bytes. -/
structure EncryptedMessageBytes where
  ciphertext : List Nat
  nonce : List Nat
  sender_pubkey : XPub
  ephemeral_pubkey : XPub
  deriving DecidableEq

/-- Byte-level view of `MessageKeyPair::decrypt_message` (`crypto.rs` lines
267-295): both Diffie-Hellman computations, the HKDF expansion, and the
AEAD open on the raw ciphertext — with no length check anywhere before the
AEAD call. -/
def MessageKeyPair.decrypt_message_bytes (self : MessageKeyPair)
    (encrypted : EncryptedMessageBytes) : Except StorageError (List Nat) :=
  let dh1 := dh self.secret_key encrypted.sender_pubkey
  let dh2 := dh self.secret_key encrypted.ephemeral_pubkey
  let shared_secret := (Hkdf.new none (SBytes.append dh1 dh2)).expand infoSecureChatV1 32
  match aeadOpenBytes shared_secret.fp encrypted.nonce encrypted.ciphertext with
  | some plaintext => Except.ok plaintext
  | none => Except.error StorageError.decryptionFailed

/-- The pre-AEAD control flow of `MessageKeyPair::decrypt_message`: the
function performs no early check at all, so every input reaches the AEAD
layer. -/
def MessageKeyPair.decryptMessageFlow (encrypted : EncryptedMessageBytes) :
    DecryptFlow :=
  DecryptFlow.aeadAttempt encrypted.nonce encrypted.ciphertext

/-! ## Helper lemmas -/

/-- Removing a buffered key never lengthens the buffer. -/
theorem length_removeSkipped_le (buf : List (Nat × SBytes)) (m : Nat) :
    (removeSkipped buf m).length ≤ buf.length := by
  unfold removeSkipped
  induction buf with
  | nil => simp [List.eraseP]
  | cons x xs ih =>
      by_cases h : (x.1 == m) = true
      · simp [List.eraseP_cons, h]
      · simp only [List.eraseP_cons, h, cond_false, List.length_cons]
        exact Nat.succ_le_succ ih

/-- Inserting into a buffer within the cap keeps it within the cap. -/
theorem insertSkipped_length_le (buf : List (Nat × SBytes)) (e : Nat × SBytes)
    (h : buf.length ≤ maxSkippedKeys) :
    (insertSkipped buf e).length ≤ maxSkippedKeys := by
  by_cases hc : maxSkippedKeys ≤ buf.length
  · rw [insertSkipped, if_pos hc]
    simp only [List.length_append, List.length_drop, List.length_cons,
      List.length_nil]
    simp only [maxSkippedKeys] at h hc ⊢
    omega
  · rw [insertSkipped, if_neg hc]
    simp only [List.length_append, List.length_cons, List.length_nil]
    simp only [maxSkippedKeys] at hc ⊢
    omega

/-- Advancing a receiving chain keeps the skipped-key buffer within the cap. -/
theorem advanceChain_length_le (gap : Nat) :
    ∀ (ck : SBytes) (n : Nat) (buf : List (Nat × SBytes)),
      buf.length ≤ maxSkippedKeys →
      ((advanceChain ck n gap buf).2.2).length ≤ maxSkippedKeys := by
  induction gap with
  | zero => intro ck n buf h; simpa [advanceChain] using h
  | succ g ih =>
      intro ck n buf h
      simpa [advanceChain] using ih _ _ _ (insertSkipped_length_le _ _ h)

/-! ## Claims -/

/-- C1: Unlocking the envelope produced by `MasterKey::from_password(P)`
with password `P'` returns the generated master key exactly when `P' = P`,
and fails with an error (the AEAD authentication failure reported as wrong
password) for every `P' ≠ P`. -/
theorem master_key_unlock_iff (password p' : List Nat) (ctr : Nat) :
    ((MasterKey.from_password password ctr).1.unlock p'
        = RunResult.ok (MasterKey.from_password password ctr).2 ↔ p' = password) ∧
    (p' ≠ password →
      (MasterKey.from_password password ctr).1.unlock p' = RunResult.err) := by
  by_cases h : p' = password
  · subst h
    simp [MasterKey.from_password, MasterKey.unlock, aeadEncrypt, aeadDecrypt,
      SBytes.len]
  · have h' : password ≠ p' := fun hpq => h hpq.symm
    constructor
    · simp [MasterKey.from_password, MasterKey.unlock, aeadEncrypt, aeadDecrypt,
        h, h']
    · intro _
      simp [MasterKey.from_password, MasterKey.unlock, aeadEncrypt, aeadDecrypt, h']

/-- Witness for C1 at the concrete creation password `[1, 2, 3]` and wrong
password `[1, 2, 4]`. -/
theorem master_key_unlock_iff_witness :
    ([1, 2, 4] : List Nat) ≠ [1, 2, 3] ∧
    (MasterKey.from_password [1, 2, 3] 0).1.unlock [1, 2, 4] = RunResult.err ∧
    (MasterKey.from_password [1, 2, 3] 0).1.unlock [1, 2, 3]
      = RunResult.ok (MasterKey.from_password [1, 2, 3] 0).2 :=
  ⟨by decide,
   (master_key_unlock_iff [1, 2, 3] [1, 2, 4] 0).2 (by decide),
   (master_key_unlock_iff [1, 2, 3] [1, 2, 3] 0).1.mpr rfl⟩

/-- C2: `DoubleRatchet::ratchet` produces identical states for any two
remote public keys: its result does not depend on the `new_remote_pubkey`
argument, since all three outputs are derived from the old root key alone. -/
theorem ratchet_independent_of_remote_pubkey (r : DoubleRatchet)
    (p1 p2 : List Nat) : r.ratchet p1 = r.ratchet p2 := rfl

/-- C4: `DoubleRatchet::ratchet` derives the new root key, sending chain
key and receiving chain key from the current root key by HKDF-SHA-256 under
the three pairwise distinct info labels `"ratchet-root"`, `"ratchet-send"`,
`"ratchet-recv"`, and resets both message counters to 0. -/
theorem ratchet_step_spec (r : DoubleRatchet) (pk : List Nat) :
    (r.ratchet pk =
      { root_key := (Hkdf.new none r.root_key).expand infoRatchetRoot 32
        sending_chain_key := some ((Hkdf.new none r.root_key).expand infoRatchetSend 32)
        receiving_chain_key := some ((Hkdf.new none r.root_key).expand infoRatchetRecv 32)
        sending_message_number := 0
        receiving_message_number := 0
        skipped_message_keys := r.skipped_message_keys }) ∧
    infoRatchetRoot ≠ infoRatchetSend ∧
    infoRatchetRoot ≠ infoRatchetRecv ∧
    infoRatchetSend ≠ infoRatchetRecv :=
  ⟨rfl, by decide, by decide, by decide⟩

/-- C3: a message encrypted by one generated `MessageKeyPair` for another
generated `MessageKeyPair`'s public key is decrypted by the recipient back
to exactly the original plaintext bytes. -/
theorem message_encrypt_decrypt_roundtrip (a b ctr : Nat) (message : List Nat) :
    (MessageKeyPair.generate b).decrypt_message
        ((MessageKeyPair.generate a).encrypt_message
          (MessageKeyPair.generate b).public_key message ctr)
      = some (SBytes.lit message) := by
  simp [MessageKeyPair.generate, MessageKeyPair.encrypt_message,
    MessageKeyPair.decrypt_message, MessageKeyPair.recvSharedSecret,
    aeadEncrypt, aeadDecrypt, dh, xpubOf, Nat.min_comm, Nat.max_comm]

/-- C6: session establishment in `encrypt_message` uses as HKDF input
keying material the 64-byte concatenation of `DH(sender long-term,
recipient)` followed by `DH(ephemeral, recipient)` in that fixed order,
expands 32 bytes with info `"SecureChat-v1"` and no explicit salt, and
`decrypt_message` derives the identical secret from its dual DH
computations. -/
theorem x3dh_shared_secret_spec (a b ctr : Nat) (message : List Nat) :
    (((MessageKeyPair.generate a).encrypt_message
        (MessageKeyPair.generate b).public_key message ctr).ciphertext.key
      = SBytes.hkdfNoSalt
          (SBytes.append (dh a (xpubOf b)) (dh ctr (xpubOf b)))
          infoSecureChatV1 32) ∧
    (SBytes.append (dh a (xpubOf b)) (dh ctr (xpubOf b))).len = 64 ∧
    infoSecureChatV1 = strBytes ("SecureChat-v1") ∧
    ((MessageKeyPair.generate b).recvSharedSecret
        ((MessageKeyPair.generate a).encrypt_message
          (MessageKeyPair.generate b).public_key message ctr)
      = ((MessageKeyPair.generate a).encrypt_message
          (MessageKeyPair.generate b).public_key message ctr).ciphertext.key) := by
  refine ⟨rfl, rfl, rfl, ?_⟩
  simp [MessageKeyPair.generate, MessageKeyPair.encrypt_message,
    MessageKeyPair.recvSharedSecret, aeadEncrypt, Hkdf.new, Hkdf.expand,
    dh, xpubOf, Nat.min_comm, Nat.max_comm]

/-- C5 counterexample: the claim that the message counters never decrease
across every operation fails — after a ratchet step and one send the
sending counter is 1, and the next DH ratchet step resets it to 0. -/
theorem counters_never_decrease_counterexample :
    Reachable (applyOp (applyOp (initRatchet (SBytes.lit []))
        (RatchetOp.ratchetStep [])) RatchetOp.send) ∧
    (applyOp (applyOp (applyOp (initRatchet (SBytes.lit []))
          (RatchetOp.ratchetStep [])) RatchetOp.send)
        (RatchetOp.ratchetStep [])).sending_message_number
      < (applyOp (applyOp (initRatchet (SBytes.lit []))
          (RatchetOp.ratchetStep [])) RatchetOp.send).sending_message_number := by
  refine ⟨Reachable.step _ _ (Reachable.step _ _ (Reachable.init _)), ?_⟩
  decide

/-- C5 (amended): send and receive operations never decrease the sending
and receiving message counters; the DH ratchet step instead resets both
counters to 0 (and can therefore decrease them). -/
theorem counters_monotone_amended (r : DoubleRatchet) (op : RatchetOp)
    (hop : ∀ pk, op ≠ RatchetOp.ratchetStep pk) :
    (r.sending_message_number ≤ (applyOp r op).sending_message_number ∧
     r.receiving_message_number ≤ (applyOp r op).receiving_message_number) ∧
    ∀ pk, (r.ratchet pk).sending_message_number = 0 ∧
          (r.ratchet pk).receiving_message_number = 0 := by
  refine ⟨?_, fun pk => ⟨rfl, rfl⟩⟩
  cases op with
  | ratchetStep pk => exact absurd rfl (hop pk)
  | send =>
      cases h : r.sending_chain_key with
      | none => simp [applyOp, sendStep, h]
      | some ck => simp [applyOp, sendStep, h]
  | recv m =>
      cases h : lookupSkipped r.skipped_message_keys m with
      | some mk => simp [applyOp, recvStep, h]
      | none =>
          by_cases hm : m < r.receiving_message_number
          · simp [applyOp, recvStep, h, hm]
          · cases hck : r.receiving_chain_key with
            | none => simp [applyOp, recvStep, h, hm, hck]
            | some ck =>
                simp only [applyOp, recvStep, h, hm, if_false, hck]
                refine ⟨Nat.le_refl _, ?_⟩
                omega

/-- Witness for the amended C5: one send on a freshly ratcheted state. -/
theorem counters_monotone_amended_witness :
    (applyOp (initRatchet (SBytes.lit [])) RatchetOp.send).sending_message_number
        ≥ (initRatchet (SBytes.lit [])).sending_message_number ∧
    (applyOp (initRatchet (SBytes.lit [])) RatchetOp.send).receiving_message_number
        ≥ (initRatchet (SBytes.lit [])).receiving_message_number :=
  ⟨((counters_monotone_amended (initRatchet (SBytes.lit [])) RatchetOp.send
      (fun pk h => RatchetOp.noConfusion h)).1).1,
   ((counters_monotone_amended (initRatchet (SBytes.lit [])) RatchetOp.send
      (fun pk h => RatchetOp.noConfusion h)).1).2⟩

/-- C7: decrypting the `EncryptedIdentityKeys` produced by
`IdentityKeyPair::encrypt` with the same master key succeeds, yields a
keypair whose secret key equals the original secret key, and the recomputed
public key equals the public key stored in the encrypted record. -/
theorem identity_encrypt_decrypt_roundtrip (I : IdentityKeyPair) (master : SBytes)
    (ctr : Nat) (hpub : I.public_key = SBytes.edpub I.secret_key)
    (hlen : I.secret_key.len = 32) :
    IdentityKeyPair.decrypt (I.encrypt master ctr) master
        = RunResult.ok ⟨SBytes.edpub I.secret_key, I.secret_key⟩ ∧
    SBytes.edpub I.secret_key = (I.encrypt master ctr).public_key := by
  constructor
  · simp [IdentityKeyPair.encrypt, IdentityKeyPair.decrypt, aeadEncrypt,
      aeadDecrypt, hlen]
  · simp [IdentityKeyPair.encrypt, hpub]

/-- Witness for C7 at a concrete generated identity and master key. -/
theorem identity_encrypt_decrypt_roundtrip_witness :
    IdentityKeyPair.decrypt
        ((IdentityKeyPair.generate 5).encrypt (SBytes.lit (List.replicate 32 0)) 9)
        (SBytes.lit (List.replicate 32 0))
      = RunResult.ok ⟨SBytes.edpub (IdentityKeyPair.generate 5).secret_key,
          (IdentityKeyPair.generate 5).secret_key⟩ ∧
    SBytes.edpub (IdentityKeyPair.generate 5).secret_key
      = ((IdentityKeyPair.generate 5).encrypt (SBytes.lit (List.replicate 32 0)) 9).public_key :=
  identity_encrypt_decrypt_roundtrip (IdentityKeyPair.generate 5) _ 9 rfl rfl

/-- C8: the skipped-message-key buffer of every reachable ratchet state
holds at most `maxSkippedKeys` entries, and inserting into a buffer already
at the cap deterministically evicts the oldest (front) entry. -/
theorem skipped_buffer_cap (r : DoubleRatchet) (buf : List (Nat × SBytes))
    (e : Nat × SBytes) (hr : Reachable r) (hbuf : buf.length = maxSkippedKeys) :
    r.skipped_message_keys.length ≤ maxSkippedKeys ∧
    insertSkipped buf e = buf.drop 1 ++ [e] := by
  constructor
  · induction hr with
    | init ss => simp [initRatchet, maxSkippedKeys]
    | step r op hr ih =>
        cases op with
        | ratchetStep pk => simpa [applyOp, DoubleRatchet.ratchet] using ih
        | send =>
            cases h : r.sending_chain_key with
            | none => simpa [applyOp, sendStep, h] using ih
            | some ck => simpa [applyOp, sendStep, h] using ih
        | recv m =>
            cases h : lookupSkipped r.skipped_message_keys m with
            | some mk =>
                simp only [applyOp, recvStep, h]
                exact le_trans (length_removeSkipped_le _ _) ih
            | none =>
                by_cases hm : m < r.receiving_message_number
                · simpa [applyOp, recvStep, h, hm] using ih
                · cases hck : r.receiving_chain_key with
                  | none => simpa [applyOp, recvStep, h, hm, hck] using ih
                  | some ck =>
                      simp only [applyOp, recvStep, h, hm, if_false, hck]
                      exact advanceChain_length_le _ _ _ _ ih
  · rw [insertSkipped, if_pos (le_of_eq hbuf.symm)]

/-- Witness for C8: the freshly initialized state and a buffer of exactly
1,000 entries. -/
theorem skipped_buffer_cap_witness :
    (initRatchet (SBytes.lit [])).skipped_message_keys.length ≤ maxSkippedKeys ∧
    insertSkipped (List.replicate 1000 ((0 : Nat), SBytes.lit []))
        (1, SBytes.lit [])
      = (List.replicate 1000 ((0 : Nat), SBytes.lit [])).drop 1 ++ [(1, SBytes.lit [])] :=
  skipped_buffer_cap (initRatchet (SBytes.lit []))
    (List.replicate 1000 ((0 : Nat), SBytes.lit [])) (1, SBytes.lit [])
    (Reachable.init _) (by rw [List.length_replicate]; rfl)

/-- C9 counterexample: a 28-byte blob has a ciphertext portion of 0 bytes,
shorter than the 16-byte AEAD tag, yet `SecureStorage::decrypt` does not
reject it before the AEAD call — its only early check is `data.len() < 28`,
so the empty ciphertext reaches the AEAD layer. -/
theorem tag_size_early_reject_counterexample :
    ((List.replicate 28 (0 : Nat)).drop 28).length < tagSize ∧
    SecureStorage.decryptFlow (List.replicate 28 (0 : Nat))
      = DecryptFlow.aeadAttempt (List.replicate 12 0) [] ∧
    SecureStorage.decryptFlow (List.replicate 28 (0 : Nat))
      ≠ DecryptFlow.earlyReject := by
  decide

/-- C9 (amended): inputs whose ciphertext portion is shorter than the
16-byte AEAD tag do make both decryption operations return an error, but
not always before an AEAD decryption is attempted: `SecureStorage::decrypt`
rejects only blobs shorter than 28 bytes before the AEAD call (longer blobs
with a short ciphertext are rejected by the AEAD layer itself), and
`MessageKeyPair::decrypt_message` performs no pre-check at all. -/
theorem short_ciphertext_rejected_amended :
    (∀ (st : SecureStorage) (data : List Nat), data.length < 44 →
        ∃ err, st.decrypt data = Except.error err) ∧
    (∀ data : List Nat, data.length < 28 →
        SecureStorage.decryptFlow data = DecryptFlow.earlyReject) ∧
    (∀ (self : MessageKeyPair) (enc : EncryptedMessageBytes),
        enc.ciphertext.length < tagSize →
        self.decrypt_message_bytes enc
          = Except.error StorageError.decryptionFailed) := by
  refine ⟨?_, ?_, ?_⟩
  · intro st data hlen
    by_cases h28 : data.length < 28
    · exact ⟨StorageError.invalidData, by simp [SecureStorage.decrypt, h28]⟩
    · refine ⟨StorageError.decryptionFailed, ?_⟩
      have hct : data.length - 28 < tagSize := by
        simp only [tagSize]
        omega
      simp [SecureStorage.decrypt, h28, aeadOpenBytes, hct]
  · intro data h28
    simp [SecureStorage.decryptFlow, h28]
  · intro self enc hct
    simp [MessageKeyPair.decrypt_message_bytes, aeadOpenBytes, hct]

/-- Witness for the amended C9 at concrete short inputs. -/
theorem short_ciphertext_rejected_witness :
    (∃ err, SecureStorage.decrypt ⟨List.replicate 32 0⟩ (List.replicate 30 0)
        = Except.error err) ∧
    SecureStorage.decryptFlow (List.replicate 20 0) = DecryptFlow.earlyReject ∧
    (MessageKeyPair.generate 0).decrypt_message_bytes
        ⟨[1, 2], List.replicate 12 0, xpubOf 3, xpubOf 4⟩
      = Except.error StorageError.decryptionFailed :=
  ⟨short_ciphertext_rejected_amended.1 _ _ (by decide),
   short_ciphertext_rejected_amended.2.1 _ (by decide),
   short_ciphertext_rejected_amended.2.2 _ _ (by decide)⟩

/-- C10: if the sealed payload of a master-key envelope or an encrypted
identity record authenticates under the supplied key but its plaintext is
not exactly 32 bytes, `MasterKey::unlock` and `IdentityKeyPair::decrypt`
panic in `copy_from_slice` instead of returning an error. -/
theorem non_32_byte_plaintext_panics :
    (∀ (e : MasterKey) (password : List Nat),
        e.encrypted_key.key = SBytes.argon2 password e.salt →
        e.encrypted_key.nonce = e.nonce →
        e.encrypted_key.plaintext.len ≠ 32 →
        e.unlock password = RunResult.panic) ∧
    (∀ (enc : EncryptedIdentityKeys) (master : SBytes),
        enc.encrypted_secret.key = master →
        enc.encrypted_secret.nonce = enc.nonce →
        enc.encrypted_secret.plaintext.len ≠ 32 →
        IdentityKeyPair.decrypt enc master = RunResult.panic) := by
  constructor
  · intro e password hk hn hl
    simp [MasterKey.unlock, aeadDecrypt, hk, hn, hl]
  · intro enc master hk hn hl
    simp [IdentityKeyPair.decrypt, aeadDecrypt, hk, hn, hl]

/-- Witness for C10: concrete envelopes whose sealed payloads authenticate
but hold a 1-byte plaintext. -/
theorem non_32_byte_plaintext_panics_witness :
    (MasterKey.unlock
        ⟨⟨SBytes.argon2 [] (SBytes.lit []), SBytes.lit [], SBytes.lit [1]⟩,
          SBytes.lit [], SBytes.lit []⟩ []
      = RunResult.panic) ∧
    (IdentityKeyPair.decrypt
        ⟨SBytes.lit [], ⟨SBytes.lit [9], SBytes.lit [], SBytes.lit [1]⟩,
          SBytes.lit []⟩ (SBytes.lit [9])
      = RunResult.panic) :=
  ⟨non_32_byte_plaintext_panics.1 _ [] rfl rfl (by decide),
   non_32_byte_plaintext_panics.2 _ _ rfl rfl (by decide)⟩

end SecureChat
